import Mathlib

/-
  Verification development for the quizzer repository (a Telegram quiz bot
  written in Go).  The Go source (src/main.go, plus an older variant in
  src/unnamed/part_000) is shallowly embedded below: strings are lists of
  characters (ASCII-accurate model of Go strings), the session table is an
  association list from user id to UserState, outbound Telegram messages are
  modelled as an Effect vocabulary with one constructor per send site, the
  process-wide random source is an explicit parameter, and Go runtime panics
  (nil-map dereference, slice index out of range) are modelled as the error
  case of Except.
-/

deriving instance DecidableEq for Except

namespace Quizzer

/-- Go strings, modelled as lists of characters (ASCII-accurate). -/
abbrev Str := List Char

/-- Model of unicode.IsSpace restricted to the code points the Go
strings.TrimSpace call actually meets in this code base (ASCII plus the two
Latin-1 spaces). -/
def goIsSpace (c : Char) : Bool :=
  c == ' ' || c == '\t' || c == '\n' || c == '\r' || c == '\x0b' ||
  c == '\x0c' || c == '\u0085' || c == ' '

/-- Model of strings.TrimSpace: drop spaces from both ends. -/
def goTrimSpace (s : Str) : Str :=
  ((s.dropWhile goIsSpace).reverse.dropWhile goIsSpace).reverse

/-- Model of strings.ToUpper (ASCII-accurate). -/
def goToUpper (s : Str) : Str := s.map Char.toUpper

/-- Model of strings.ToLower (ASCII-accurate). -/
def goToLower (s : Str) : Str := s.map Char.toLower

/-- Model of strings.SplitN(s, sep, 2) for a one-character separator:
returns the parts before and after the first occurrence of the separator,
or none when the separator does not occur (SplitN then yields one part). -/
def splitOnce : Str → Char → Option (Str × Str)
  | [], _ => none
  | c :: rest, sep =>
    if c = sep then some ([], rest)
    else
      match splitOnce rest sep with
      | some (a, b) => some (c :: a, b)
      | none => none

/-- The separator preference list of extractLetter in the source. -/
def sepChars : List Char := ['.', ')', ':']

/-- The separator loop of extractLetter: try each separator in preference
order; on the first one that occurs in the text, return the trimmed,
upper-cased prefix. -/
def extractLetterLoop : List Char → Str → Option Str
  | [], _ => none
  | sep :: seps, text =>
    match splitOnce text sep with
    | some (a, _) => some (goToUpper (goTrimSpace a))
    | none => extractLetterLoop seps text

/-- Embedding of extractLetter from src/main.go lines 188-203 (identical in
src/unnamed/part_000 lines 121-136): split on the first of the separators
'.', ')', ':' in preference order and return the trimmed upper-cased prefix;
otherwise upper-case the first character; empty input gives the empty
string. -/
def extractLetter (text : Str) : Str :=
  match extractLetterLoop sepChars text with
  | some r => r
  | none =>
    match text with
    | [] => []
    | c :: _ => goToUpper [c]

/-- Model of strings.EqualFold (ASCII-accurate simple case folding). -/
def goEqualFold (a b : Str) : Bool := goToUpper a == goToUpper b

/-- Embedding of contains from src/main.go lines 515-522. -/
def contains (slice : List Str) (item : Str) : Bool :=
  slice.any (fun s => goEqualFold s item)

/-- Model of strings.HasPrefix pat s (pattern first). -/
def leadsWith : Str → Str → Bool
  | [], _ => true
  | _ :: _, [] => false
  | p :: ps, c :: cs => p == c && leadsWith ps cs

/-- Model of strings.TrimPrefix s pat. -/
def trimLead (pat s : Str) : Str :=
  if leadsWith pat s then s.drop pat.length else s

/-- Embedding of the Question struct of src/main.go (lines 51-56).  The Go
options map is modelled as an association list; Go map iteration order is
unspecified, which only affects presentation. -/
structure Question where
  id : Int
  question : Str
  options : List (Str × Str)
  correctAnswer : List Str
deriving DecidableEq

/-- A placeholder question, used only as the default of List.getD at
positions the handlers have already bounds-checked. -/
def defQ : Question := ⟨0, [], [], []⟩

/-- Go map lookup in the options map: a missing key yields the empty
string, as in Go. -/
def optGet : List (Str × Str) → Str → Str
  | [], _ => []
  | (k', v) :: opts, k => if k' = k then v else optGet opts k

/-- The Themes field of QuestionManager: topic name to question list. -/
abbrev Themes := List (Str × List Question)

/-- Go map lookup in the Themes map (with the comma-ok flag as Option). -/
def lookupTh : Themes → Str → Option (List Question)
  | [], _ => none
  | (k', v) :: th, k => if k' = k then some v else lookupTh th k

/-- Embedding of the UserState struct of src/main.go (lines 69-75).  The Go
int fields only ever start at zero and are incremented, so Nat is a
faithful model. -/
structure UserState where
  currentQuestion : Nat
  score : Nat
  questionOrder : List Nat
  selectedTheme : Str
  setupStep : Str
deriving DecidableEq

/-- The Users session table: user id (int64) to state. -/
abbrev Table := List (Int × UserState)

/-- Go map lookup in the Users table (with the comma-ok flag as Option). -/
def lookupT : Table → Int → Option UserState
  | [], _ => none
  | (k', v) :: t, k => if k' = k then some v else lookupT t k

/-- Go map assignment: replace the binding in place, or append. -/
def insertT : Table → Int → UserState → Table
  | [], k, v => [(k, v)]
  | (k', v') :: t, k, v =>
    if k' = k then (k, v) :: t else (k', v') :: insertT t k v

/-- Go map delete. -/
def eraseT : Table → Int → Table
  | [], _ => []
  | (k', v) :: t, k => if k' = k then eraseT t k else (k', v) :: eraseT t k

/-- The three-way classification of an answer built into the response
string of the default branch of handleCallbackQuery. -/
inductive AnswerKind where
  | invalidChoice : AnswerKind
  | correct : AnswerKind
  | incorrect (label text : Str) : AnswerKind
deriving DecidableEq

/-- Outbound messages, one constructor per Bot.Send site of src/main.go.
The message texts themselves are presentation glue and are not modelled;
the data each site interpolates is carried by the constructor. -/
inductive Effect where
  /-- Start(): unknown command reply. -/
  | unknownCommand : Effect
  /-- handleStartCommand: no themes found. -/
  | noThemes : Effect
  /-- handleStartCommand: theme keyboard. -/
  | chooseTheme (themes : List Str) : Effect
  /-- handleRestartCommand: no questions found. -/
  | noQuestions : Effect
  /-- handleRestartCommand: quiz restarted. -/
  | restarted : Effect
  /-- handleHelpCommand. -/
  | help : Effect
  /-- sendQuestion: please start with /start or /random. -/
  | promptStartRandom : Effect
  /-- sendQuestion and callback default branch: selected theme
  unavailable, pick another one. -/
  | themeUnavailable : Effect
  /-- sendQuestion: quiz finished with score. -/
  | completedScore (score total : Nat) : Effect
  /-- sendQuestion: bad question index. -/
  | badIndex : Effect
  /-- sendQuestion: the rendered question. -/
  | showQuestion (q : Question) : Effect
  /-- handleCallbackQuery: no session, please start with /start. -/
  | promptStart : Effect
  /-- handleCallbackQuery select-order branch: theme unavailable, start
  again. -/
  | themeUnavailableRestart : Effect
  /-- handleCallbackQuery: order keyboard. -/
  | chooseOrder : Effect
  /-- handleCallbackQuery: quiz already finished. -/
  | alreadyFinished : Effect
  /-- handleCallbackQuery: answer feedback with running score. -/
  | answerResult (kind : AnswerKind) (score total : Nat) : Effect
  /-- handleCallbackQuery: final congratulation with score. -/
  | congrats (score total : Nat) : Effect
deriving DecidableEq

/-- Go runtime panics the handlers can hit. -/
inductive GoPanic where
  /-- Dereference of the nil pointer a missing map entry yields. -/
  | nilDeref : GoPanic
  /-- Slice index out of range. -/
  | indexOutOfRange : GoPanic
deriving DecidableEq

/-- One swap of rand.Shuffle on the order slice. -/
def swapL (l : List Nat) (i j : Nat) : List Nat :=
  (l.set i (l.getD j 0)).set j (l.getD i 0)

/-- The Fisher-Yates loop of rand.Shuffle: for i from n-1 down to 1, swap
position i with a random position j in [0, i].  The random source is the
explicit function rnd; taking the draw modulo i+1 models rand.Intn(i+1). -/
def fyLoop (rnd : Nat → Nat) : Nat → List Nat → List Nat
  | 0, l => l
  | i + 1, l => fyLoop rnd i (swapL l (i + 1) (rnd (i + 1) % (i + 2)))

/-- Embedding of rand.Shuffle over the order slice. -/
def goShuffle (rnd : Nat → Nat) (l : List Nat) : List Nat :=
  fyLoop rnd (l.length - 1) l

/- String constants used by the handlers. -/
def sSelectTheme : Str := "select_theme".data
def sSelectOrder : Str := "select_order".data
def sThemePre : Str := "theme_".data
def sOrdered : Str := "order_ordered".data
def sRandom : Str := "order_random".data

/-- Embedding of sendQuestion from src/main.go lines 305-377.  Returns the
updated table and the emitted effects; indexing QuestionOrder out of its
bounds is the Go panic case. -/
def sendQuestion (th : Themes) (users : Table) (uid : Int) :
    Except GoPanic (Table × List Effect) :=
  match lookupT users uid with
  | none => .ok (users, [.promptStartRandom])
  | some st =>
    match lookupTh th st.selectedTheme with
    | none => .ok (users, [.themeUnavailable])
    | some qs =>
      if qs.length = 0 then .ok (users, [.themeUnavailable])
      else if qs.length ≤ st.currentQuestion then
        .ok (eraseT users uid, [.completedScore st.score qs.length])
      else if st.questionOrder.length ≤ st.currentQuestion then
        .error .indexOutOfRange
      else
        let ci := st.questionOrder.getD st.currentQuestion 0
        if qs.length ≤ ci then .ok (users, [.badIndex])
        else .ok (users, [.showQuestion (qs.getD ci defQ)])

/-- Embedding of handleStartCommand from src/main.go lines 205-244.  Note
the session is created (overwriting any previous one) before the theme
list is inspected. -/
def handleStartCommand (th : Themes) (users : Table) (uid : Int) :
    Table × List Effect :=
  let users' := insertT users uid ⟨0, 0, [], [], sSelectTheme⟩
  let themes := th.map (fun p => p.1)
  if themes.length = 0 then (users', [.noThemes])
  else (users', [.chooseTheme themes])

/-- All questions of all themes concatenated, as handleRestartCommand
collects them (Go map iteration order is unspecified; association-list
order stands in for it, and the theorems below depend only on the
length). -/
def allQuestions (th : Themes) : List Question :=
  (th.map (fun p => p.2)).flatten

/-- Embedding of handleRestartCommand from src/main.go lines 247-289.  The
read of Users[id].SelectedTheme does not check that the entry exists: for
a user without a session the Go code dereferences a nil pointer, the
panic case here. -/
def handleRestartCommand (th : Themes) (users : Table) (uid : Int) :
    Except GoPanic (Table × List Effect) :=
  let allQ := allQuestions th
  if allQ.length = 0 then .ok (users, [.noQuestions])
  else
    match lookupT users uid with
    | none => .error .nilDeref
    | some st =>
      let users' := insertT users uid
        ⟨0, 0, List.range allQ.length, st.selectedTheme, []⟩
      match sendQuestion th users' uid with
      | .error e => .error e
      | .ok (u2, effs) => .ok (u2, .restarted :: effs)

/-- Embedding of handleHelpCommand from src/main.go lines 292-302. -/
def handleHelpCommand (users : Table) : Table × List Effect :=
  (users, [.help])

/-- Embedding of handleCallbackQuery from src/main.go lines 379-513.  The
callback acknowledgment (answerCallback) is transport glue and not
modelled.  The SetupStep string selects the phase: "select_theme" awaits a
topic, "select_order" awaits an ordering mode, anything else (always the
empty string in reachable states) is quiz-in-progress. -/
def handleCallbackQuery (th : Themes) (rnd : Nat → Nat) (users : Table)
    (uid : Int) (data : Str) : Except GoPanic (Table × List Effect) :=
  match lookupT users uid with
  | none => .ok (users, [.promptStart])
  | some st =>
    if st.setupStep = sSelectTheme then
      if leadsWith sThemePre data then
        let theme := trimLead sThemePre data
        .ok (insertT users uid
              { st with selectedTheme := theme, setupStep := sSelectOrder },
             [.chooseOrder])
      else .ok (users, [])
    else if st.setupStep = sSelectOrder then
      if data = sOrdered ∨ data = sRandom then
        match lookupTh th st.selectedTheme with
        | none => .ok (users, [.themeUnavailableRestart])
        | some qs =>
          if qs.length = 0 then .ok (users, [.themeUnavailableRestart])
          else
            let base := List.range qs.length
            let order := if data = sRandom then goShuffle rnd base else base
            let users' := insertT users uid
              ⟨0, 0, order, st.selectedTheme, []⟩
            match sendQuestion th users' uid with
            | .error e => .error e
            | .ok (u2, effs) => .ok (u2, effs)
      else .ok (users, [])
    else
      let letter := goToUpper (goTrimSpace data)
      match lookupTh th st.selectedTheme with
      | none => .ok (users, [.themeUnavailable])
      | some qs =>
        if qs.length = 0 then .ok (users, [.themeUnavailable])
        else if qs.length ≤ st.currentQuestion then
          .ok (users, [.alreadyFinished])
        else if st.questionOrder.length ≤ st.currentQuestion then
          .error .indexOutOfRange
        else
          let qi := st.questionOrder.getD st.currentQuestion 0
          if qs.length ≤ qi then .error .indexOutOfRange
          else
            let q := qs.getD qi defQ
            let res : Option (AnswerKind × Nat) :=
              if letter = [] then some (.invalidChoice, st.score)
              else if contains q.correctAnswer letter then
                some (.correct, st.score + 1)
              else
                match q.correctAnswer with
                | [] => none
                | co :: _ => some (.incorrect co (optGet q.options co), st.score)
            match res with
            | none => .error .indexOutOfRange
            | some (kind, score2) =>
              let st' : UserState :=
                ⟨st.currentQuestion + 1, score2, st.questionOrder,
                 st.selectedTheme, st.setupStep⟩
              let users' := insertT users uid st'
              if st.currentQuestion + 1 < qs.length then
                match sendQuestion th users' uid with
                | .error e => .error e
                | .ok (u2, effs) =>
                  .ok (u2, .answerResult kind score2 qs.length :: effs)
              else
                .ok (eraseT users' uid,
                     [.answerResult kind score2 qs.length,
                      .congrats score2 qs.length])

/-- The inbound events Start() of src/main.go routes (lines 105-129):
commands, non-command messages (ignored), and callback-query button
presses. -/
inductive Update where
  | command (uid : Int) (name : Str) : Update
  | plain (uid : Int) : Update
  | callback (uid : Int) (data : Str) : Update

/-- Embedding of the dispatch loop body of Start() from src/main.go
lines 105-129. -/
def handleUpdate (th : Themes) (rnd : Nat → Nat) (users : Table) :
    Update → Except GoPanic (Table × List Effect)
  | .command uid name =>
    if name = "start".data then .ok (handleStartCommand th users uid)
    else if name = "help".data then .ok (handleHelpCommand users)
    else if name = "restart".data then handleRestartCommand th users uid
    else .ok (users, [.unknownCommand])
  | .plain _ => .ok (users, [])
  | .callback uid data => handleCallbackQuery th rnd users uid data

/- ------------------------------------------------------------------
   The question-store load path (src/main.go lines 131-185).  File
   system and JSON decoding are the external world: a directory entry
   carries its name, whether it is a subdirectory, and the outcome of
   reading-and-unmarshalling it.
   ------------------------------------------------------------------ -/

/-- An os.DirEntry together with the outcome of os.ReadFile +
json.Unmarshal on it. -/
structure DirEntry where
  name : Str
  isDir : Bool
  parsed : Except Unit (List Question)

/-- The state of the source root: os.Stat failing, the path not being a
directory, or a readable directory listing. -/
inductive RootStat where
  | statError : RootStat
  | notDir : RootStat
  | readable (files : List DirEntry) : RootStat

/-- Model of filepath.Join dirPath name (no cleaning needed for the
inputs this code produces). -/
def pathJoin (dir name : Str) : Str := dir ++ ('/' :: name)

/-- Model of filepath.Ext: the suffix starting at the final dot, empty
when there is none. -/
def extOf (s : Str) : Str :=
  if '.' ∈ s then '.' :: (s.reverse.takeWhile (fun c => ¬ c = '.')).reverse
  else []

/-- Go map assignment on the Themes map: replace the binding in place,
or append. -/
def insertTh : Themes → Str → List Question → Themes
  | [], k, v => [(k, v)]
  | (k', v') :: t, k, v =>
    if k' = k then (k, v) :: t else (k', v') :: insertTh t k v

/-- Embedding of loadQuestions from src/main.go lines 131-146: a read or
unmarshal failure is returned to the caller; a successfully parsed
question list is stored under the file path with no validation at all. -/
def loadQuestions (qm : Themes) (filename : Str)
    (parsed : Except Unit (List Question)) : Except Unit Themes :=
  match parsed with
  | .error e => .error e
  | .ok qs => .ok (insertTh qm filename qs)

/-- The file loop of LoadAllQuestionsFromDir: skip subdirectories and
files without a .json extension, load the rest, and on a load error log a
warning and continue. -/
def loadLoop (dir : Str) (qm : Themes) : List DirEntry → Themes
  | [] => qm
  | e :: rest =>
    if e.isDir then loadLoop dir qm rest
    else if ¬ goToLower (extOf e.name) = ".json".data then loadLoop dir qm rest
    else
      match loadQuestions qm (pathJoin dir e.name) e.parsed with
      | .error _ => loadLoop dir qm rest
      | .ok qm2 => loadLoop dir qm2 rest

/-- Embedding of LoadAllQuestionsFromDir from src/main.go lines 148-185:
an inaccessible or non-directory root aborts the whole load; otherwise
every entry is processed by the loop above. -/
def LoadAllQuestionsFromDir (qm : Themes) (dirPath : Str)
    (root : RootStat) : Except Unit Themes :=
  match root with
  | .statError => .error ()
  | .notDir => .error ()
  | .readable files => .ok (loadLoop dirPath qm files)

/- ------------------------------------------------------------------
   Concrete fixtures used by counterexamples and witnesses.
   ------------------------------------------------------------------ -/

/-- A well-formed one-option question whose correct answer is "A". -/
def qA : Question := ⟨0, "q".data, [("A".data, "x".data)], ["A".data]⟩

/-- A question whose correct-answer set contains the empty label. -/
def qE : Question := ⟨0, "q".data, [([], "x".data)], [[]]⟩

/-- A question with no options and no correct answers at all. -/
def badQ : Question := ⟨0, "q".data, [], []⟩

/- ------------------------------------------------------------------
   Session-table and data-model invariants.
   ------------------------------------------------------------------ -/

/-- The per-session invariant of the specification:
0 <= score <= position <= len(order). -/
def sessionInv (st : UserState) : Prop :=
  0 ≤ st.score ∧ st.score ≤ st.currentQuestion ∧
    st.currentQuestion ≤ st.questionOrder.length

instance (st : UserState) : Decidable (sessionInv st) := by
  unfold sessionInv; infer_instance

/-- Every session present in the table satisfies the invariant. -/
def tableInv (t : Table) : Prop := ∀ p ∈ t, sessionInv p.2

instance (t : Table) : Decidable (tableInv t) := by
  unfold tableInv; infer_instance

/- ------------------------------------------------------------------
   Association-table lemmas.
   ------------------------------------------------------------------ -/

lemma lookupT_insertT_self (t : Table) (k : Int) (v : UserState) :
    lookupT (insertT t k v) k = some v := by
  induction t with
  | nil => simp [insertT, lookupT]
  | cons p t ih =>
    obtain ⟨k', v'⟩ := p
    by_cases h : k' = k
    · simp [insertT, h, lookupT]
    · simp [insertT, h, lookupT, ih]

lemma lookupT_eraseT_self (t : Table) (k : Int) :
    lookupT (eraseT t k) k = none := by
  induction t with
  | nil => simp [eraseT, lookupT]
  | cons p t ih =>
    obtain ⟨k', v'⟩ := p
    by_cases h : k' = k
    · simp [eraseT, h, ih]
    · simp [eraseT, h, lookupT, ih]

lemma tableInv_insertT {t : Table} {v : UserState} (k : Int)
    (h : tableInv t) (hv : sessionInv v) : tableInv (insertT t k v) := by
  induction t with
  | nil => intro p hp; simp [insertT] at hp; simp [hp, hv]
  | cons q t ih =>
    obtain ⟨k', v'⟩ := q
    have ht : tableInv t := fun p hp => h p (List.mem_cons_of_mem _ hp)
    by_cases hk : k' = k
    · intro p hp
      simp only [insertT, if_pos hk] at hp
      rcases List.mem_cons.mp hp with rfl | hp
      · exact hv
      · exact ht p hp
    · intro p hp
      simp only [insertT, if_neg hk] at hp
      rcases List.mem_cons.mp hp with rfl | hp
      · exact h _ (List.mem_cons_self _ _)
      · exact ih ht p hp

lemma tableInv_eraseT {t : Table} (k : Int) (h : tableInv t) :
    tableInv (eraseT t k) := by
  induction t with
  | nil => simpa [eraseT] using h
  | cons q t ih =>
    obtain ⟨k', v'⟩ := q
    have ht : tableInv t := fun p hp => h p (List.mem_cons_of_mem _ hp)
    by_cases hk : k' = k
    · simpa [eraseT, hk] using ih ht
    · intro p hp
      simp only [eraseT, if_neg hk] at hp
      rcases List.mem_cons.mp hp with rfl | hp
      · exact h _ (List.mem_cons_self _ _)
      · exact ih ht p hp

lemma sessionInv_of_lookupT {t : Table} {k : Int} {v : UserState}
    (h : tableInv t) (hl : lookupT t k = some v) : sessionInv v := by
  induction t with
  | nil => simp [lookupT] at hl
  | cons q t ih =>
    obtain ⟨k', v'⟩ := q
    have ht : tableInv t := fun p hp => h p (List.mem_cons_of_mem _ hp)
    by_cases hk : k' = k
    · simp only [lookupT, if_pos hk] at hl
      cases hl
      exact h _ (List.mem_cons_self _ _)
    · simp only [lookupT, if_neg hk] at hl
      exact ih ht hl

/- ------------------------------------------------------------------
   splitOnce characterization, for the extractLetter claim.
   ------------------------------------------------------------------ -/

lemma splitOnce_eq_none {s : Str} {c : Char} (h : ¬ c ∈ s) :
    splitOnce s c = none := by
  induction s with
  | nil => rfl
  | cons a t ih =>
    have hac : ¬ a = c := by
      intro hh; exact h (hh ▸ List.mem_cons_self a t)
    have hct : ¬ c ∈ t := fun hh => h (List.mem_cons_of_mem _ hh)
    simp [splitOnce, hac, ih hct]

lemma splitOnce_eq_some {s : Str} {c : Char} (h : c ∈ s) :
    ∃ b, splitOnce s c = some (s.takeWhile (fun x => decide (¬ x = c)), b) := by
  induction s with
  | nil => cases h
  | cons a t ih =>
    by_cases hac : a = c
    · subst hac
      exact ⟨t, by simp [splitOnce, List.takeWhile]⟩
    · have hct : c ∈ t := by
        rcases List.mem_cons.mp h with rfl | hh
        · exact absurd rfl hac
        · exact hh
      obtain ⟨b, hb⟩ := ih hct
      exact ⟨b, by simp [splitOnce, hac, hb, List.takeWhile]⟩

/- ------------------------------------------------------------------
   The Fisher-Yates shuffle permutes its input.
   ------------------------------------------------------------------ -/

lemma perm_set_cons (l : List Nat) :
    ∀ (i : Nat) (a : Nat), i < l.length →
      ((l.set i a) ++ [l.getD i 0]).Perm (l ++ [a]) := by
  induction l with
  | nil => intro i a h; simp at h
  | cons b t ih =>
    intro i a h
    cases i with
    | zero =>
      simp only [List.set_cons_zero, List.getD_cons_zero, List.cons_append]
      exact ((List.Perm.cons a (List.perm_append_singleton b t)).trans
        (List.Perm.swap b a t)).trans
        (List.Perm.cons b (List.perm_append_singleton a t).symm)
    | succ i =>
      simp only [List.set_cons_succ, List.getD_cons_succ, List.cons_append]
      exact List.Perm.cons b (ih i a (by simpa using h))

lemma swapL_perm {l : List Nat} {i j : Nat} (hi : i < l.length)
    (hj : j < l.length) : (swapL l i j).Perm l := by
  have hlenA : (l.set i (l.getD j 0)).length = l.length := by simp
  have h1 : ((l.set i (l.getD j 0)) ++ [l.getD i 0]).Perm (l ++ [l.getD j 0]) :=
    perm_set_cons l i _ hi
  have hAj : (l.set i (l.getD j 0)).getD j 0 = l.getD j 0 := by
    rw [List.getD_eq_getElem _ 0 (hlenA ▸ hj), List.getElem_set (hlenA ▸ hj)]
    by_cases hij : i = j
    · rw [if_pos hij]
    · rw [if_neg hij]
      exact (List.getD_eq_getElem l 0 hj).symm
  have h2 : (((l.set i (l.getD j 0)).set j (l.getD i 0)) ++
      [(l.set i (l.getD j 0)).getD j 0]).Perm
        ((l.set i (l.getD j 0)) ++ [l.getD i 0]) :=
    perm_set_cons _ j _ (hlenA ▸ hj)
  rw [hAj] at h2
  have h3 : ((swapL l i j) ++ [l.getD j 0]).Perm (l ++ [l.getD j 0]) := by
    unfold swapL
    exact h2.trans h1
  have h4 : (l.getD j 0 :: swapL l i j).Perm (l.getD j 0 :: l) :=
    ((List.perm_append_singleton _ _).symm.trans h3).trans
      (List.perm_append_singleton _ _)
  exact h4.cons_inv

lemma swapL_length (l : List Nat) (i j : Nat) :
    (swapL l i j).length = l.length := by
  simp [swapL]

lemma fyLoop_perm (rnd : Nat → Nat) (i : Nat) :
    ∀ l : List Nat, i < l.length → (fyLoop rnd i l).Perm l := by
  induction i with
  | zero => intro l _; exact List.Perm.refl l
  | succ i ih =>
    intro l h
    have hj : rnd (i + 1) % (i + 2) < l.length := by
      have := Nat.mod_lt (rnd (i + 1)) (show 0 < i + 2 by omega)
      omega
    have hswap := swapL_perm h hj
    have hlen : (swapL l (i + 1) (rnd (i + 1) % (i + 2))).length = l.length :=
      swapL_length l _ _
    have hrec := ih (swapL l (i + 1) (rnd (i + 1) % (i + 2))) (by omega)
    exact (hrec.trans hswap)

lemma goShuffle_perm (rnd : Nat → Nat) (l : List Nat) :
    (goShuffle rnd l).Perm l := by
  cases l with
  | nil => exact List.Perm.refl _
  | cons a t =>
    unfold goShuffle
    apply fyLoop_perm
    simp

lemma goShuffle_length (rnd : Nat → Nat) (l : List Nat) :
    (goShuffle rnd l).length = l.length :=
  (goShuffle_perm rnd l).length_eq

lemma lt_of_mem_perm_range {o : List Nat} {n : Nat}
    (h : o.Perm (List.range n)) : ∀ x ∈ o, x < n := by
  intro x hx
  exact List.mem_range.mp (h.subset hx)

lemma getD_lt_of_perm_range {o : List Nat} {n : Nat}
    (h : o.Perm (List.range n)) (hpos : 0 < o.length) : o.getD 0 0 < n := by
  apply lt_of_mem_perm_range h
  rw [List.getD_eq_getElem o 0 hpos]
  exact List.getElem_mem hpos

/- ------------------------------------------------------------------
   sendQuestion: result-shape and invariant lemmas.
   ------------------------------------------------------------------ -/

/-- When the looked-up session still has a question to show (and its order
slice is long enough), sendQuestion leaves the table unchanged and emits
one message. -/
lemma sendQuestion_stable {th : Themes} {users : Table} {uid : Int}
    {st : UserState} (hlook : lookupT users uid = some st)
    (hcond : ∀ qs, lookupTh th st.selectedTheme = some qs → ¬ qs.length = 0 →
      st.currentQuestion < qs.length ∧
        st.currentQuestion < st.questionOrder.length) :
    ∃ effs, sendQuestion th users uid = .ok (users, effs) := by
  unfold sendQuestion
  simp only [hlook]
  cases hth : lookupTh th st.selectedTheme with
  | none => exact ⟨_, rfl⟩
  | some qs =>
    by_cases h0 : qs.length = 0
    · simp only [if_pos h0]
      exact ⟨_, rfl⟩
    · obtain ⟨h1, h2⟩ := hcond qs hth h0
      simp only [if_neg h0, if_neg (by omega : ¬ qs.length ≤ st.currentQuestion),
        if_neg (by omega : ¬ st.questionOrder.length ≤ st.currentQuestion)]
      by_cases hci : qs.length ≤ st.questionOrder.getD st.currentQuestion 0
      · simp only [if_pos hci]
        exact ⟨_, rfl⟩
      · simp only [if_neg hci]
        exact ⟨_, rfl⟩

/-- sendQuestion preserves the table invariant. -/
lemma sendQuestion_inv {th : Themes} {users : Table} {uid : Int}
    {u2 : Table} {effs : List Effect} (h : tableInv users)
    (hs : sendQuestion th users uid = .ok (u2, effs)) : tableInv u2 := by
  unfold sendQuestion at hs
  simp only [] at hs
  repeat' split at hs
  all_goals
    simp only [Except.ok.injEq, Prod.mk.injEq, reduceCtorEq] at hs
  all_goals try obtain ⟨rfl, rfl⟩ := hs
  all_goals first
    | exact h
    | exact tableInv_eraseT _ h

/-- handleCallbackQuery preserves the table invariant. -/
lemma handleCallbackQuery_inv {th : Themes} {rnd : Nat → Nat} {users : Table}
    {uid : Int} {data : Str} {u2 : Table} {effs : List Effect}
    (h : tableInv users)
    (hc : handleCallbackQuery th rnd users uid data = .ok (u2, effs)) :
    tableInv u2 := by
  unfold handleCallbackQuery at hc
  cases hlook : lookupT users uid with
  | none =>
    simp only [hlook, Except.ok.injEq, Prod.mk.injEq] at hc
    obtain ⟨rfl, rfl⟩ := hc
    exact h
  | some st =>
    have hst := sessionInv_of_lookupT h hlook
    simp only [hlook] at hc
    by_cases h1 : st.setupStep = sSelectTheme
    · rw [if_pos h1] at hc
      split at hc
      all_goals simp only [Except.ok.injEq, Prod.mk.injEq] at hc
      all_goals obtain ⟨rfl, rfl⟩ := hc
      · apply tableInv_insertT _ h
        simpa [sessionInv] using hst
      · exact h
    · rw [if_neg h1] at hc
      by_cases h2 : st.setupStep = sSelectOrder
      · rw [if_pos h2] at hc
        split at hc
        · -- an order button was pressed
          split at hc
          · -- theme not found
            simp only [Except.ok.injEq, Prod.mk.injEq] at hc
            obtain ⟨rfl, rfl⟩ := hc
            exact h
          · rename_i qs hth
            split at hc
            · -- empty theme
              simp only [Except.ok.injEq, Prod.mk.injEq] at hc
              obtain ⟨rfl, rfl⟩ := hc
              exact h
            · try simp only [] at hc
              split at hc
              · exact absurd hc (by simp)
              · rename_i ua ea hs
                simp only [Except.ok.injEq, Prod.mk.injEq] at hc
                obtain ⟨rfl, rfl⟩ := hc
                refine sendQuestion_inv ?_ hs
                apply tableInv_insertT _ h
                exact ⟨Nat.zero_le _, Nat.zero_le _, Nat.zero_le _⟩
        · -- other button: no-op
          simp only [Except.ok.injEq, Prod.mk.injEq] at hc
          obtain ⟨rfl, rfl⟩ := hc
          exact h
      · -- quiz in progress: an answer
        rw [if_neg h2] at hc
        try simp only [] at hc
        split at hc
        · -- theme not found
          simp only [Except.ok.injEq, Prod.mk.injEq] at hc
          obtain ⟨rfl, rfl⟩ := hc
          exact h
        · rename_i qs hth
          split at hc
          · -- empty theme
            simp only [Except.ok.injEq, Prod.mk.injEq] at hc
            obtain ⟨rfl, rfl⟩ := hc
            exact h
          · split at hc
            · -- already finished
              simp only [Except.ok.injEq, Prod.mk.injEq] at hc
              obtain ⟨rfl, rfl⟩ := hc
              exact h
            · split at hc
              · -- order slice too short: panic, not ok
                exact absurd hc (by simp)
              · rename_i hordlen
                split at hc
                · -- question index out of range: panic, not ok
                  exact absurd hc (by simp)
                · split at hc
                  · -- empty correct-answer slice: panic, not ok
                    exact absurd hc (by simp)
                  · rename_i kind score2 hres
                    -- the running score grows by at most one
                    have hsc : score2 ≤ st.score + 1 := by
                      split at hres
                      · cases hres; exact Nat.le_succ _
                      · split at hres
                        · cases hres; exact Nat.le_refl _
                        · split at hres
                          · exact absurd hres (by simp)
                          · cases hres; exact Nat.le_succ _
                    have hinv' : sessionInv
                        ⟨st.currentQuestion + 1, score2, st.questionOrder,
                         st.selectedTheme, st.setupStep⟩ := by
                      refine ⟨Nat.zero_le _, ?_, ?_⟩
                      · have := hst.2.1
                        simp only []
                        omega
                      · simp only []
                        omega
                    split at hc
                    · -- more questions: sendQuestion on the updated table
                      split at hc
                      · exact absurd hc (by simp)
                      · rename_i ua ea hs
                        simp only [Except.ok.injEq, Prod.mk.injEq] at hc
                        obtain ⟨rfl, rfl⟩ := hc
                        refine sendQuestion_inv ?_ hs
                        exact tableInv_insertT _ h hinv'
                    · -- quiz finished: the entry is deleted
                      simp only [Except.ok.injEq, Prod.mk.injEq] at hc
                      obtain ⟨rfl, rfl⟩ := hc
                      exact tableInv_eraseT _ (tableInv_insertT _ h hinv')

/-- handleRestartCommand preserves the table invariant. -/
lemma handleRestartCommand_inv {th : Themes} {users : Table} {uid : Int}
    {u2 : Table} {effs : List Effect} (h : tableInv users)
    (hc : handleRestartCommand th users uid = .ok (u2, effs)) :
    tableInv u2 := by
  unfold handleRestartCommand at hc
  simp only [] at hc
  split at hc
  · simp only [Except.ok.injEq, Prod.mk.injEq] at hc
    obtain ⟨rfl, rfl⟩ := hc
    exact h
  · split at hc
    · exact absurd hc (by simp)
    · split at hc
      · exact absurd hc (by simp)
      · rename_i ua ea hs
        simp only [Except.ok.injEq, Prod.mk.injEq] at hc
        obtain ⟨rfl, rfl⟩ := hc
        refine sendQuestion_inv ?_ hs
        apply tableInv_insertT _ h
        exact ⟨Nat.zero_le _, Nat.zero_le _, Nat.zero_le _⟩

/-- handleStartCommand preserves the table invariant. -/
lemma handleStartCommand_inv (th : Themes) (users : Table) (uid : Int)
    (h : tableInv users) :
    tableInv (handleStartCommand th users uid).1 := by
  unfold handleStartCommand
  simp only []
  split
  all_goals
    exact tableInv_insertT _ h ⟨Nat.zero_le _, Nat.zero_le _, Nat.zero_le _⟩

/- ------------------------------------------------------------------
   The claims.
   ------------------------------------------------------------------ -/

/-- Claim C2: for every session present in the table, after every
transition (any event in any phase) the invariant
0 <= score <= position <= len(order) holds: dispatching any update on a
table whose sessions all satisfy the invariant yields (when the handler
returns rather than panicking) a table whose sessions all satisfy it. -/
theorem table_invariant_preserved (th : Themes) (rnd : Nat → Nat)
    (users : Table) (upd : Update) (u2 : Table) (effs : List Effect)
    (hinv : tableInv users)
    (h : handleUpdate th rnd users upd = .ok (u2, effs)) : tableInv u2 := by
  cases upd with
  | command uid name =>
    simp only [handleUpdate] at h
    split at h
    · injection h with h'
      have hst := handleStartCommand_inv th users uid hinv
      rw [h'] at hst
      exact hst
    · split at h
      · injection h with h'
        simp only [handleHelpCommand, Prod.mk.injEq] at h'
        obtain ⟨rfl, rfl⟩ := h'
        exact hinv
      · split at h
        · exact handleRestartCommand_inv hinv h
        · injection h with h'
          simp only [Prod.mk.injEq] at h'
          obtain ⟨rfl, rfl⟩ := h'
          exact hinv
  | plain uid =>
    simp only [handleUpdate] at h
    injection h with h'
    simp only [Prod.mk.injEq] at h'
    obtain ⟨rfl, rfl⟩ := h'
    exact hinv
  | callback uid data =>
    exact handleCallbackQuery_inv hinv h

/-- Witness for C2 at a concrete input: a /start command on an empty
table produces a table satisfying the invariant. -/
theorem table_invariant_preserved_witness :
    tableInv [((1 : Int), ⟨0, 0, [], [], sSelectTheme⟩)] :=
  table_invariant_preserved [] (fun _ => 0) [] (.command 1 "start".data)
    [((1 : Int), ⟨0, 0, [], [], sSelectTheme⟩)] [.noThemes]
    (by decide) (by rfl)

/-- Claim C3: extractLetter (named extractLabel in the spec) is a pure function
that splits on the first of '.', ')', ':' in that preference order (first
match wins) and returns the trimmed, upper-cased prefix before the first
occurrence of the winning separator; with no separator present it returns
the upper-cased first character; the empty string maps to the empty
string; together with the five concrete examples of the spec. -/
theorem extractLetter_spec :
    extractLetter [] = []
  ∧ (∀ c rest, ¬ '.' ∈ (c :: rest) → ¬ ')' ∈ (c :: rest) →
      ¬ ':' ∈ (c :: rest) → extractLetter (c :: rest) = [c.toUpper])
  ∧ (∀ s : Str, '.' ∈ s → extractLetter s =
      goToUpper (goTrimSpace (s.takeWhile (fun x => decide (¬ x = '.')))))
  ∧ (∀ s : Str, ¬ '.' ∈ s → ')' ∈ s → extractLetter s =
      goToUpper (goTrimSpace (s.takeWhile (fun x => decide (¬ x = ')')))))
  ∧ (∀ s : Str, ¬ '.' ∈ s → ¬ ')' ∈ s → ':' ∈ s → extractLetter s =
      goToUpper (goTrimSpace (s.takeWhile (fun x => decide (¬ x = ':')))))
  ∧ extractLetter "A. Paris".data = "A".data
  ∧ extractLetter "b) London".data = "B".data
  ∧ extractLetter "C:Berlin".data = "C".data
  ∧ extractLetter "x".data = "X".data
  ∧ extractLetter "".data = "".data := by
  refine ⟨rfl, ?_, ?_, ?_, ?_, by decide, by decide, by decide, by decide, rfl⟩
  · intro c rest h1 h2 h3
    unfold extractLetter sepChars
    simp only [extractLetterLoop, splitOnce_eq_none h1,
      splitOnce_eq_none h2, splitOnce_eq_none h3]
    rfl
  · intro s h
    obtain ⟨b, hb⟩ := splitOnce_eq_some h
    unfold extractLetter sepChars
    simp only [extractLetterLoop, hb]
  · intro s h1 h2
    obtain ⟨b, hb⟩ := splitOnce_eq_some h2
    unfold extractLetter sepChars
    simp only [extractLetterLoop, splitOnce_eq_none h1, hb]
  · intro s h1 h2 h3
    obtain ⟨b, hb⟩ := splitOnce_eq_some h3
    unfold extractLetter sepChars
    simp only [extractLetterLoop, splitOnce_eq_none h1,
      splitOnce_eq_none h2, hb]

/-- Witness for C3 at a concrete input: a string without separators is
mapped to its upper-cased first character. -/
theorem extractLetter_spec_witness : extractLetter "qz".data = ['Q'] := by
  have h := extractLetter_spec.2.1 'q' "z".data
    (by decide) (by decide) (by decide)
  simpa using h

/-- Counterexample to claim C7: with an empty Question Bank, a BeginQuiz
for user 1 on an empty session table does create a session (the table is
not unchanged), contrary to the claim that no session is created. -/
theorem begin_empty_bank_cex :
    handleStartCommand [] [] 1 =
      ([((1 : Int), ⟨0, 0, [], [], sSelectTheme⟩)], [.noThemes]) ∧
    ¬ ([((1 : Int), (⟨0, 0, [], [], sSelectTheme⟩ : UserState))] =
        ([] : Table)) := by
  decide

/-- Claim C7 as amended: when BeginQuiz arrives and the Question Bank is
empty, the handler first creates (or overwrites) the session of the user in
the AwaitingTopic phase and only then reports the "no topics available"
error, so the session remains in the table alongside the error effect. -/
theorem begin_empty_bank_amended (users : Table) (uid : Int) :
    handleStartCommand [] users uid =
      (insertT users uid ⟨0, 0, [], [], sSelectTheme⟩, [.noThemes]) ∧
    lookupT (insertT users uid ⟨0, 0, [], [], sSelectTheme⟩) uid =
      some ⟨0, 0, [], [], sSelectTheme⟩ := by
  exact ⟨rfl, lookupT_insertT_self users uid _⟩

/-- Witness for the amended C7 at a concrete input. -/
theorem begin_empty_bank_amended_witness :
    handleStartCommand [] [((2 : Int), ⟨1, 1, [0], "t".data, []⟩)] 1 =
      (insertT [((2 : Int), ⟨1, 1, [0], "t".data, []⟩)] 1
        ⟨0, 0, [], [], sSelectTheme⟩, [.noThemes]) :=
  (begin_empty_bank_amended [((2 : Int), ⟨1, 1, [0], "t".data, []⟩)] 1).1

/-- Claim C8, evaluating the code at the failing input: a /restart from a
user with no session (and a nonempty bank) dereferences the nil pointer
returned by the session-table lookup, i.e. the handler panics instead of
being a total transition. -/
theorem restart_missing_session_panics :
    handleRestartCommand [("t".data, [qA])] [] 1 = .error .nilDeref := by
  decide

lemma leadsWith_append (p s : Str) : leadsWith p (p ++ s) = true := by
  induction p with
  | nil => rfl
  | cons c cs ih => simp [leadsWith, ih]

lemma trimLead_append (p s : Str) : trimLead p (p ++ s) = s := by
  simp [trimLead, leadsWith_append, List.drop_left]

/-- Counterexample to claim C6: in AwaitingTopic, choosing the topic name
"x" while the bank is empty (so "x" is certainly not in it) does not
leave the session unchanged with an error effect: the topic of the session
becomes "x" and it moves on to the order-choice step. -/
theorem topicChosen_unknown_cex :
    handleCallbackQuery [] (fun _ => 0)
      [((1 : Int), ⟨0, 0, [], [], sSelectTheme⟩)] 1 "theme_x".data =
      .ok ([((1 : Int), ⟨0, 0, [], "x".data, sSelectOrder⟩)],
           [.chooseOrder]) ∧
    ¬ ("x".data : Str) = [] := by
  decide

/-- Claim C6 as amended: in AwaitingTopic, TopicChosen(name) always sets
topic = name and moves the session to AwaitingOrder with the order-choice
effect, with no membership check against the bank; when name is not in
the bank, the error effect is produced only by the subsequent OrderChosen
event, which then leaves the session (unchanged) in AwaitingOrder. -/
theorem topicChosen_amended (th : Themes) (rnd : Nat → Nat) (users : Table)
    (uid : Int) (st : UserState) (name : Str)
    (hlook : lookupT users uid = some st)
    (hstep : st.setupStep = sSelectTheme) :
    handleCallbackQuery th rnd users uid (sThemePre ++ name) =
      .ok (insertT users uid
            ⟨st.currentQuestion, st.score, st.questionOrder, name,
             sSelectOrder⟩,
           [.chooseOrder]) ∧
    (lookupTh th name = none →
      handleCallbackQuery th rnd
        (insertT users uid
          ⟨st.currentQuestion, st.score, st.questionOrder, name,
           sSelectOrder⟩)
        uid sOrdered =
        .ok (insertT users uid
              ⟨st.currentQuestion, st.score, st.questionOrder, name,
               sSelectOrder⟩,
             [.themeUnavailableRestart])) := by
  constructor
  · unfold handleCallbackQuery
    simp only [hlook, if_pos hstep, leadsWith_append, trimLead_append,
      if_true]
  · intro hnone
    unfold handleCallbackQuery
    simp only [lookupT_insertT_self, hnone]
    simp [sSelectTheme, sSelectOrder, sOrdered, sRandom]

/-- Witness for the amended C6 at a concrete input. -/
theorem topicChosen_amended_witness :
    handleCallbackQuery [] (fun _ => 0)
      [((3 : Int), ⟨0, 0, [], [], sSelectTheme⟩)] 3 (sThemePre ++ "x".data) =
      .ok (insertT [((3 : Int), ⟨0, 0, [], [], sSelectTheme⟩)] 3
            ⟨0, 0, [], "x".data, sSelectOrder⟩, [.chooseOrder]) :=
  (topicChosen_amended [] (fun _ => 0)
    [((3 : Int), ⟨0, 0, [], [], sSelectTheme⟩)] 3
    ⟨0, 0, [], [], sSelectTheme⟩ "x".data (by decide) (by decide)).1

/-- Counterexample to claim C4: a session in AwaitingOrder whose chosen
topic exists but has n = 0 questions is not moved to InProgress with the
identity order on OrderChosen(ordered): the handler reports the theme as
unavailable and leaves the session in AwaitingOrder. -/
theorem orderChosen_empty_topic_cex :
    handleCallbackQuery [("t".data, [])] (fun _ => 0)
      [((1 : Int), ⟨0, 0, [], "t".data, sSelectOrder⟩)] 1 sOrdered =
      .ok ([((1 : Int), ⟨0, 0, [], "t".data, sSelectOrder⟩)],
           [.themeUnavailableRestart]) ∧
    ¬ sSelectOrder = ([] : Str) := by
  decide

/-- Claim C4 as amended: for a session in AwaitingOrder whose chosen
topic is in the bank with n >= 1 questions, OrderChosen(ordered) sets
order to the identity permutation [0, ..., n-1] and OrderChosen(random)
sets it to the Fisher-Yates shuffle of that list, which is a permutation
of [0, ..., n-1]; in both cases position and score become 0 and the
session moves to InProgress (empty SetupStep). -/
theorem orderChosen_amended (th : Themes) (rnd : Nat → Nat) (users : Table)
    (uid : Int) (st : UserState) (qs : List Question) (data : Str)
    (hlook : lookupT users uid = some st)
    (hstep : st.setupStep = sSelectOrder)
    (hth : lookupTh th st.selectedTheme = some qs)
    (hne : ¬ qs.length = 0)
    (hdata : data = sOrdered ∨ data = sRandom) :
    ∃ u2 effs ord,
      handleCallbackQuery th rnd users uid data = .ok (u2, effs) ∧
      lookupT u2 uid = some ⟨0, 0, ord, st.selectedTheme, []⟩ ∧
      ord.Perm (List.range qs.length) ∧
      (data = sOrdered → ord = List.range qs.length) ∧
      (data = sRandom → ord = goShuffle rnd (List.range qs.length)) := by
  have hstepNe : ¬ st.setupStep = sSelectTheme := by
    rw [hstep]; decide
  set ord := if data = sRandom then goShuffle rnd (List.range qs.length)
    else List.range qs.length with hord
  have hordlen : ord.length = qs.length := by
    rw [hord]; split
    · rw [goShuffle_length, List.length_range]
    · rw [List.length_range]
  set st' : UserState := ⟨0, 0, ord, st.selectedTheme, []⟩ with hst'
  have hsend : ∃ effs, sendQuestion th (insertT users uid st') uid =
      .ok (insertT users uid st', effs) := by
    apply sendQuestion_stable (lookupT_insertT_self users uid st')
    intro qs2 hth2 hne2
    constructor
    · show (0 : Nat) < qs2.length
      omega
    · show (0 : Nat) < ord.length
      omega
  obtain ⟨effs, hsend⟩ := hsend
  refine ⟨insertT users uid st', effs, ord, ?_, ?_, ?_, ?_, ?_⟩
  · unfold handleCallbackQuery
    simp only [hlook, if_neg hstepNe, if_pos hstep, if_pos hdata, hth,
      if_neg hne]
    rw [← hord, ← hst', hsend]
  · exact lookupT_insertT_self users uid st'
  · rw [hord]
    split
    · exact goShuffle_perm rnd (List.range qs.length)
    · exact List.Perm.refl _
  · intro h
    rw [hord, if_neg (by rw [h]; decide)]
  · intro h
    rw [hord, if_pos h]

/-- Witness for the amended C4 at a concrete input. -/
theorem orderChosen_amended_witness :
    ∃ u2 effs ord,
      handleCallbackQuery [("t".data, [qA])] (fun _ => 0)
        [((1 : Int), ⟨0, 0, [], "t".data, sSelectOrder⟩)] 1 sOrdered =
        .ok (u2, effs) ∧
      lookupT u2 1 = some ⟨0, 0, ord, "t".data, []⟩ ∧
      ord.Perm (List.range [qA].length) ∧
      (sOrdered = sOrdered → ord = List.range [qA].length) ∧
      (sOrdered = sRandom → ord = goShuffle (fun _ => 0)
        (List.range [qA].length)) :=
  orderChosen_amended [("t".data, [qA])] (fun _ => 0)
    [((1 : Int), ⟨0, 0, [], "t".data, sSelectOrder⟩)] 1
    ⟨0, 0, [], "t".data, sSelectOrder⟩ [qA] sOrdered
    (by decide) rfl (by decide) (by decide) (Or.inl rfl)

/-- Counterexample to claim C5: a Restart for a user whose session is
mid-quiz (position 1, score 1 in topic "t") does not produce a fresh
session in AwaitingTopic: the new session keeps the chosen topic "t" and
its SetupStep is the empty string (the InProgress phase), and the first
question is immediately rendered. -/
theorem restart_keeps_topic_cex :
    handleRestartCommand [("t".data, [qA])]
      [((1 : Int), ⟨1, 1, [0], "t".data, []⟩)] 1 =
      .ok ([((1 : Int), ⟨0, 0, [0], "t".data, []⟩)],
           [.restarted, .showQuestion qA]) ∧
    ¬ ([] : Str) = sSelectTheme := by
  decide

/-- Claim C5 as amended: for a user with an existing session and a
nonempty bank, Restart discards position and score (both reset to 0) but
keeps the previously selected topic, sets order to the identity
permutation over the total number of questions of all topics combined,
and places the session in the InProgress (answering) phase, not in
AwaitingTopic, emitting the restart confirmation as its first effect; a
user with no session makes the handler panic instead. -/
theorem restart_amended (th : Themes) (users : Table) (uid : Int)
    (st : UserState)
    (hlook : lookupT users uid = some st)
    (hne : ¬ (allQuestions th).length = 0) :
    ∃ effs, handleRestartCommand th users uid =
      .ok (insertT users uid
            ⟨0, 0, List.range (allQuestions th).length,
             st.selectedTheme, []⟩,
           .restarted :: effs) := by
  set st' : UserState :=
    ⟨0, 0, List.range (allQuestions th).length, st.selectedTheme, []⟩
    with hst'
  have hsend : ∃ effs, sendQuestion th (insertT users uid st') uid =
      .ok (insertT users uid st', effs) := by
    apply sendQuestion_stable (lookupT_insertT_self users uid st')
    intro qs2 hth2 hne2
    constructor
    · show (0 : Nat) < qs2.length
      omega
    · show (0 : Nat) < (List.range (allQuestions th).length).length
      rw [List.length_range]
      omega
  obtain ⟨effs, hsend⟩ := hsend
  refine ⟨effs, ?_⟩
  unfold handleRestartCommand
  simp only [if_neg hne, hlook]
  rw [← hst', hsend]

/-- Witness for the amended C5 at a concrete input. -/
theorem restart_amended_witness :
    ∃ effs, handleRestartCommand [("t".data, [qA])]
      [((1 : Int), ⟨1, 1, [0], "t".data, []⟩)] 1 =
      .ok (insertT [((1 : Int), ⟨1, 1, [0], "t".data, []⟩)] 1
            ⟨0, 0, List.range (allQuestions [("t".data, [qA])]).length,
             "t".data, []⟩,
           .restarted :: effs) :=
  restart_amended [("t".data, [qA])]
    [((1 : Int), ⟨1, 1, [0], "t".data, []⟩)] 1
    ⟨1, 1, [0], "t".data, []⟩ (by decide) (by decide)

lemma lookupTh_insertTh_self (qm : Themes) (k : Str) (v : List Question) :
    lookupTh (insertTh qm k v) k = some v := by
  induction qm with
  | nil => simp [insertTh, lookupTh]
  | cons p t ih =>
    obtain ⟨k', v'⟩ := p
    by_cases h : k' = k
    · simp [insertTh, h, lookupTh]
    · simp [insertTh, h, lookupTh, ih]

lemma loadLoop_skip_error (dir : Str) (post : List DirEntry) (name : Str) :
    ∀ (pre : List DirEntry) (qm : Themes),
      loadLoop dir qm (pre ++ ⟨name, false, .error ()⟩ :: post) =
        loadLoop dir qm (pre ++ post) := by
  intro pre
  induction pre with
  | nil =>
    intro qm
    simp only [List.nil_append, loadLoop]
    split
    · rfl
    · split
      · rfl
      · rfl
  | cons e pre ih =>
    intro qm
    simp only [List.cons_append, loadLoop]
    split
    · exact ih qm
    · split
      · exact ih qm
      · split
        · exact ih qm
        · exact ih _

/-- Counterexample to claim C9: the load path accepts a topic file whose
single question has zero options and zero correct-answer labels, storing
it verbatim in the bank, so no per-question validation takes place. -/
theorem load_no_validation_cex :
    LoadAllQuestionsFromDir [] "d".data
      (.readable [⟨"a.json".data, false, .ok [badQ]⟩]) =
      .ok [(pathJoin "d".data "a.json".data, [badQ])] ∧
    badQ.options = [] ∧ badQ.correctAnswer = [] := by
  decide

/-- Claim C9 as amended: the load operation performs no per-question
validation (any parsed question list, including questions with no options
or with correct-answer labels absent from their options, is stored
verbatim); an individual topic file whose read or JSON decode fails is
skipped while loading continues with the remaining entries; and an
inaccessible (or non-directory) source root aborts the entire load with
an error. -/
theorem load_amended :
    (∀ (qm : Themes) (dir : Str),
      LoadAllQuestionsFromDir qm dir .statError = .error ()) ∧
    (∀ (qm : Themes) (dir : Str),
      LoadAllQuestionsFromDir qm dir .notDir = .error ()) ∧
    (∀ (dir : Str) (post pre : List DirEntry) (name : Str) (qm : Themes),
      loadLoop dir qm (pre ++ ⟨name, false, .error ()⟩ :: post) =
        loadLoop dir qm (pre ++ post)) ∧
    (∀ (qm : Themes) (name : Str) (qs : List Question),
      loadQuestions qm name (.ok qs) = .ok (insertTh qm name qs)) ∧
    (∀ (qm : Themes) (name : Str) (qs : List Question),
      lookupTh (insertTh qm name qs) name = some qs) := by
  refine ⟨fun _ _ => rfl, fun _ _ => rfl, ?_, fun _ _ _ => rfl, ?_⟩
  · intro dir post pre name qm
    exact loadLoop_skip_error dir post name pre qm
  · intro qm name qs
    exact lookupTh_insertTh_self qm name qs

/-- Witness for the amended C9 at a concrete input: an unreadable root
aborts the load. -/
theorem load_amended_witness :
    LoadAllQuestionsFromDir [] "d".data .statError = .error () :=
  load_amended.1 [] "d".data

/-- A callback event for a user with no session only prompts the user to
start and changes nothing. -/
lemma callback_no_session {th : Themes} {rnd : Nat → Nat} {u : Table}
    {uid : Int} (data : Str) (h : lookupT u uid = none) :
    handleCallbackQuery th rnd u uid data = .ok (u, [.promptStart]) := by
  unfold handleCallbackQuery
  simp only [h]

/-- Counterexample to claim C1: with a question whose correct-answer set
contains the empty label, the answer " " (whose trimmed, upper-cased form
is the empty string, which matches that set case-insensitively) does not
increment the score: the quiz completes with final score 0 instead of
the 1 required by the if-and-only-if of the claim. -/
theorem answer_empty_label_cex :
    handleCallbackQuery [("t".data, [qE])] (fun _ => 0)
      [((1 : Int), ⟨0, 0, [0], "t".data, []⟩)] 1 " ".data =
      .ok ([], [.answerResult .invalidChoice 0 1, .congrats 0 1]) ∧
    contains qE.correctAnswer (goToUpper (goTrimSpace " ".data)) = true := by
  decide

/-- Claim C1 as amended: for a session in InProgress with position <
questionCount whose current question is well defined (the order slice is
at least as long as the question list and the current order entry is a
valid index) and has a nonempty correct-answer set, an AnswerSelected
event increments position by exactly 1 and increments score by exactly 1
iff the trimmed, upper-cased label is nonempty and matches an element of
the correct-answer set case-insensitively (an empty normalized label is
always counted as incorrect, even when the empty string is in the set);
when the incremented position reaches questionCount, a completion effect
with the final score is emitted and the session is removed, so that a
subsequent event for that user behaves as the no-session case. -/
theorem answer_step_amended (th : Themes) (rnd : Nat → Nat) (users : Table)
    (uid : Int) (data : Str) (st : UserState) (qs : List Question)
    (hlook : lookupT users uid = some st)
    (h1 : ¬ st.setupStep = sSelectTheme)
    (h2 : ¬ st.setupStep = sSelectOrder)
    (hth : lookupTh th st.selectedTheme = some qs)
    (hpos : st.currentQuestion < qs.length)
    (hlen : qs.length ≤ st.questionOrder.length)
    (hqi : st.questionOrder.getD st.currentQuestion 0 < qs.length)
    (hca : ¬ (qs.getD (st.questionOrder.getD st.currentQuestion 0)
        defQ).correctAnswer = []) :
    ∃ u2 effs score2,
      handleCallbackQuery th rnd users uid data = .ok (u2, effs) ∧
      score2 = st.score +
        (if ¬ goToUpper (goTrimSpace data) = [] ∧
            contains (qs.getD (st.questionOrder.getD st.currentQuestion 0)
              defQ).correctAnswer (goToUpper (goTrimSpace data)) = true
         then 1 else 0) ∧
      ((st.currentQuestion + 1 < qs.length ∧
          lookupT u2 uid = some ⟨st.currentQuestion + 1, score2,
            st.questionOrder, st.selectedTheme, st.setupStep⟩) ∨
       (st.currentQuestion + 1 = qs.length ∧
          lookupT u2 uid = none ∧
          Effect.congrats score2 qs.length ∈ effs ∧
          ∀ d2 : Str, handleCallbackQuery th rnd u2 uid d2 =
            .ok (u2, [Effect.promptStart]))) := by
  have hq0 : ¬ qs.length = 0 := by omega
  have hnfin : ¬ qs.length ≤ st.currentQuestion := by omega
  have hnord : ¬ st.questionOrder.length ≤ st.currentQuestion := by omega
  have hnqi : ¬ qs.length ≤ st.questionOrder.getD st.currentQuestion 0 := by
    omega
  -- package the common continuation for the three answer kinds:
  -- kind and resulting score are fixed by the branch hypotheses below.
  have main : ∀ (kind : AnswerKind) (sc2 : Nat),
      sc2 = st.score ∨ sc2 = st.score + 1 →
      ∃ u2 effs,
        (if st.currentQuestion + 1 < qs.length then
          match sendQuestion th
            (insertT users uid ⟨st.currentQuestion + 1, sc2,
              st.questionOrder, st.selectedTheme, st.setupStep⟩) uid with
          | Except.error e => Except.error e
          | Except.ok (t2, e2) =>
            Except.ok (t2, Effect.answerResult kind sc2 qs.length :: e2)
        else
          Except.ok
            (eraseT (insertT users uid ⟨st.currentQuestion + 1, sc2,
                st.questionOrder, st.selectedTheme, st.setupStep⟩) uid,
             [Effect.answerResult kind sc2 qs.length,
              Effect.congrats sc2 qs.length])) = Except.ok (u2, effs) ∧
        ((st.currentQuestion + 1 < qs.length ∧
            lookupT u2 uid = some ⟨st.currentQuestion + 1, sc2,
              st.questionOrder, st.selectedTheme, st.setupStep⟩) ∨
         (st.currentQuestion + 1 = qs.length ∧
            lookupT u2 uid = none ∧
            Effect.congrats sc2 qs.length ∈ effs ∧
            ∀ d2 : Str, handleCallbackQuery th rnd u2 uid d2 =
              .ok (u2, [Effect.promptStart]))) := by
    intro kind sc2 _
    rcases Nat.lt_or_ge (st.currentQuestion + 1) qs.length with hcase | hge
    · -- more questions remain
      obtain ⟨effs2, hsend⟩ := sendQuestion_stable
        (lookupT_insertT_self users uid
          ⟨st.currentQuestion + 1, sc2, st.questionOrder,
           st.selectedTheme, st.setupStep⟩)
        (by
          intro qs2 hth2 hne2
          have h3 : lookupTh th st.selectedTheme = some qs2 := hth2
          rw [hth] at h3
          injection h3 with h3
          subst h3
          constructor
          · show st.currentQuestion + 1 < qs.length
            omega
          · show st.currentQuestion + 1 < st.questionOrder.length
            omega)
      refine ⟨insertT users uid ⟨st.currentQuestion + 1, sc2,
          st.questionOrder, st.selectedTheme, st.setupStep⟩,
        Effect.answerResult kind sc2 qs.length :: effs2,
        ?_, Or.inl ⟨hcase, ?_⟩⟩
      · rw [if_pos hcase, hsend]
      · exact lookupT_insertT_self users uid _
    · have heq : st.currentQuestion + 1 = qs.length := by omega
      refine ⟨eraseT (insertT users uid ⟨st.currentQuestion + 1, sc2,
          st.questionOrder, st.selectedTheme, st.setupStep⟩) uid,
        [Effect.answerResult kind sc2 qs.length,
         Effect.congrats sc2 qs.length],
        ?_, Or.inr ⟨heq, ?_, ?_, ?_⟩⟩
      · rw [if_neg (by omega)]
      · exact lookupT_eraseT_self _ uid
      · simp
      · intro d2
        exact callback_no_session d2 (lookupT_eraseT_self _ uid)
  -- now reduce the handler to the continuation above, branch by branch.
  unfold handleCallbackQuery
  simp only [hlook, if_neg h1, if_neg h2, hth, if_neg hq0, if_neg hnfin,
    if_neg hnord, if_neg hnqi]
  by_cases hl : goToUpper (goTrimSpace data) = []
  · -- empty normalized label: counted incorrect without a set lookup
    have hsc : st.score = st.score +
        (if ¬ goToUpper (goTrimSpace data) = [] ∧
            contains (qs.getD (st.questionOrder.getD st.currentQuestion 0)
              defQ).correctAnswer (goToUpper (goTrimSpace data)) = true
         then 1 else 0) := by
      rw [if_neg (fun hcon => hcon.1 hl)]
      omega
    obtain ⟨u2, effs, hmain, hrest⟩ :=
      main .invalidChoice st.score (Or.inl rfl)
    refine ⟨u2, effs, st.score, ?_, hsc, hrest⟩
    simp only [hl, eq_self_iff_true, if_true]
    exact hmain
  · by_cases hc : contains (qs.getD (st.questionOrder.getD
        st.currentQuestion 0) defQ).correctAnswer
        (goToUpper (goTrimSpace data)) = true
    · -- a correct answer: score goes up by one
      have hsc : st.score + 1 = st.score +
          (if ¬ goToUpper (goTrimSpace data) = [] ∧
              contains (qs.getD (st.questionOrder.getD st.currentQuestion 0)
                defQ).correctAnswer (goToUpper (goTrimSpace data)) = true
           then 1 else 0) := by
        rw [if_pos ⟨hl, hc⟩]
      obtain ⟨u2, effs, hmain, hrest⟩ :=
        main .correct (st.score + 1) (Or.inr rfl)
      refine ⟨u2, effs, st.score + 1, ?_, hsc, hrest⟩
      simp only [hl, hc, eq_self_iff_true, if_true, if_false]
      exact hmain
    · -- an incorrect nonempty answer: score unchanged
      obtain ⟨co, tl, hco⟩ := List.exists_cons_of_ne_nil hca
      have hsc : st.score = st.score +
          (if ¬ goToUpper (goTrimSpace data) = [] ∧
              contains (qs.getD (st.questionOrder.getD st.currentQuestion 0)
                defQ).correctAnswer (goToUpper (goTrimSpace data)) = true
           then 1 else 0) := by
        rw [if_neg (fun hcon => hc hcon.2)]
        omega
      obtain ⟨u2, effs, hmain, hrest⟩ :=
        main (.incorrect co (optGet (qs.getD (st.questionOrder.getD
          st.currentQuestion 0) defQ).options co)) st.score (Or.inl rfl)
      refine ⟨u2, effs, st.score, ?_, hsc, hrest⟩
      simp only [hl, hc, eq_self_iff_true, if_true, if_false,
        Bool.false_eq_true]
      simp only [hco]
      exact hmain

/-- Witness for the amended C1 at a concrete input: answering the single
question of topic "t" correctly completes the quiz with score 1 and
removes the session. -/
theorem answer_step_amended_witness :
    ∃ u2 effs score2,
      handleCallbackQuery [("t".data, [qA])] (fun _ => 0)
        [((1 : Int), ⟨0, 0, [0], "t".data, []⟩)] 1 "A".data =
        .ok (u2, effs) ∧
      score2 = (0 : Nat) +
        (if ¬ goToUpper (goTrimSpace "A".data) = [] ∧
            contains ([qA].getD (([0] : List Nat).getD 0 0)
              defQ).correctAnswer (goToUpper (goTrimSpace "A".data)) = true
         then 1 else 0) ∧
      ((0 + 1 < [qA].length ∧
          lookupT u2 1 = some ⟨0 + 1, score2, [0], "t".data, []⟩) ∨
       (0 + 1 = [qA].length ∧
          lookupT u2 1 = none ∧
          Effect.congrats score2 [qA].length ∈ effs ∧
          ∀ d2 : Str, handleCallbackQuery [("t".data, [qA])] (fun _ => 0)
            u2 1 d2 = .ok (u2, [Effect.promptStart]))) :=
  answer_step_amended [("t".data, [qA])] (fun _ => 0)
    [((1 : Int), ⟨0, 0, [0], "t".data, []⟩)] 1 "A".data
    ⟨0, 0, [0], "t".data, []⟩ [qA]
    (by decide) (by decide) (by decide) (by decide) (by decide)
    (by decide) (by decide) (by decide)

end Quizzer
